import Mathlib

/-!
Shallow embedding of `src/nfsgetattrcache.c`, a caching layer that wraps an
NFS `getattr` provider, and verification of its specified behavior.

Modelling choices:
* A C string is its list of characters up to the NUL terminator (`CStr`).
* The opaque `struct kstat` blob is never inspected by the cache, only
  copied wholesale with `memcpy`, so it is modelled abstractly (`KStat`).
* Jiffies timestamps are natural numbers; `ttl` stands for the value of
  `msecs_to_jiffies(CACHE_TIMEOUT_MS)` and is kept as a parameter.
* The configured prefix table `cached_paths` is likewise a parameter of
  `should_cache_path`, with the source's concrete table given separately.
* `cached_getattr` is a pure function from its inputs — the null-ness of
  the C arguments, the result of `get_full_path` (d_path), the current
  jiffies value, the behavior of `original_iops->getattr`, and whether
  `kmalloc` succeeds — to an outcome recording the returned int, the value
  written to `*stat`, how many provider calls were made, and the new
  module state.
-/

set_option maxHeartbeats 1000000

/-- A C string, modelled as its list of characters up to the NUL terminator. -/
abbrev CStr := List Char

/-- The opaque `struct kstat` attribute blob, modelled abstractly: the cache
only ever copies it with `memcpy`, never inspects it. -/
abbrev KStat := Nat

/-- `MAX_PATH_LEN` from the source (line 21). -/
def MAX_PATH_LEN : Nat := 256

/-- The configured cache path table `cached_paths` from the source (lines 24–26). -/
def cached_paths : List CStr := ["/tmp/nfs".data]

/-- The `EINVAL` errno value; `cached_getattr` returns `-EINVAL` on null
arguments. -/
def EINVAL : Int := 22

/-- `struct getattr_cache_entry` (lines 30–35): a stored path (as copied by
the truncating `strncpy`), the cached `kstat`, and the jiffies timestamp at
creation. The intrusive `list_head` is represented by membership in the
state's list. -/
structure GetattrCacheEntry where
  path : CStr
  stat : KStat
  timestamp : Nat
deriving Repr, DecidableEq

/-- The module's shared mutable state: `cache_list` (head = most recent
`list_add`, which prepends), and the `cache_hits` / `cache_misses` counters
(lines 38–40). -/
structure CacheState where
  cache_list : List GetattrCacheEntry
  cache_hits : Nat
  cache_misses : Nat
deriving Repr, DecidableEq

/-- Models `strncmp(a, b, n) == 0` for NUL-terminated C strings: compare at
most `n` characters, stopping early (with success) when both strings end
together, and failing when exactly one of them ends. -/
def strncmp_eq0 : CStr → CStr → Nat → Bool
  | _, _, 0 => true
  | [], [], _ + 1 => true
  | [], _ :: _, _ + 1 => false
  | _ :: _, [], _ + 1 => false
  | a :: as, b :: bs, n + 1 => a == b && strncmp_eq0 as bs n

/-- `should_cache_path` (lines 49–58): scan the configured table and return
true as soon as `strncmp(path, table[i], strlen(table[i])) == 0`, i.e. as
soon as a configured entry is a raw byte-prefix of `path`. The table is a
parameter; the source's fixed table is `cached_paths`. -/
def should_cache_path (prefixes : List CStr) (path : CStr) : Bool :=
  prefixes.any (fun pre => strncmp_eq0 path pre pre.length)

/-- `cleanup_cache` (lines 70–83): one pass over `cache_list` under the lock,
deleting every entry with `now - entry->timestamp >= ttl` and keeping the
rest in place. -/
def cleanup_cache (ttl now : Nat) : List GetattrCacheEntry → List GetattrCacheEntry
  | [] => []
  | e :: rest =>
    if now - e.timestamp ≥ ttl then cleanup_cache ttl now rest
    else e :: cleanup_cache ttl now rest

/-- The lookup loop of `cached_getattr` (lines 116–126): scan `cache_list`
in list order and return the stat of the first entry whose path compares
equal under `strcmp` and whose age `now - timestamp` is strictly below the
TTL; any other entry is skipped and the scan continues. Nothing is removed. -/
def lookup_loop (ttl now : Nat) (fullpath : CStr) : List GetattrCacheEntry → Option KStat
  | [] => none
  | e :: rest =>
    if e.path = fullpath ∧ now - e.timestamp < ttl then some e.stat
    else lookup_loop ttl now fullpath rest

/-- The truncating copy of lines 142–143: `strncpy(entry->path, fullpath,
MAX_PATH_LEN - 1)` followed by forcing a NUL at index `MAX_PATH_LEN - 1`,
i.e. keep at most the first `MAX_PATH_LEN - 1` characters. -/
def truncate_path (s : CStr) : CStr := s.take (MAX_PATH_LEN - 1)

/-- The observable outcome of one `cached_getattr` call: the returned int,
the value left in `*stat` (`none` when the call wrote no meaningful value),
the number of calls made to `original_iops->getattr`, and the module state
afterwards. -/
structure GetattrOutcome where
  ret : Int
  statOut : Option KStat
  providerCalls : Nat
  state : CacheState
deriving Repr, DecidableEq

/-- `cached_getattr` (lines 92–154). Inputs beyond the state: `pathNonNull`,
`dentryNonNull`, `statNonNull` model the null checks of line 102; `resolved`
is the result of `get_full_path` (lines 60–68, `none` when `d_path` errors);
`now` is the jiffies value read at entry (line 97); `fetchRet` and
`fetchAttr` describe the behavior of `original_iops->getattr` on this path
(return code, and the stat it writes on success); `allocOk` is whether the
`kmalloc` of line 137 succeeds. -/
def cached_getattr (prefixes : List CStr) (ttl : Nat)
    (pathNonNull dentryNonNull statNonNull : Bool)
    (resolved : Option CStr) (now : Nat)
    (fetchRet : Int) (fetchAttr : KStat) (allocOk : Bool)
    (st : CacheState) : GetattrOutcome :=
  if pathNonNull = false ∨ dentryNonNull = false ∨ statNonNull = false then
    ⟨-EINVAL, none, 0, st⟩
  else
    match resolved with
    | none => ⟨fetchRet, if fetchRet = 0 then some fetchAttr else none, 1, st⟩
    | some fullpath =>
      if should_cache_path prefixes fullpath = false then
        ⟨fetchRet, if fetchRet = 0 then some fetchAttr else none, 1, st⟩
      else
        match lookup_loop ttl now fullpath st.cache_list with
        | some attrs =>
          ⟨0, some attrs, 0, { st with cache_hits := st.cache_hits + 1 }⟩
        | none =>
          let st1 := { st with cache_misses := st.cache_misses + 1 }
          if fetchRet ≠ 0 then
            ⟨fetchRet, none, 1, st1⟩
          else if allocOk = false then
            ⟨0, some fetchAttr, 1, st1⟩
          else
            ⟨0, some fetchAttr, 1,
              { st1 with cache_list :=
                  ⟨truncate_path fullpath, fetchAttr, now⟩ :: st1.cache_list }⟩

/-- `strncmp(path, pre, strlen(pre)) == 0` holds exactly when `pre` is a raw
byte-prefix of `path`, i.e. `path` begins with `pre`. -/
theorem strncmp_eq0_length_iff (pre path : CStr) :
    strncmp_eq0 path pre pre.length = true ↔ ∃ t, path = pre ++ t := by
  induction pre generalizing path with
  | nil =>
    simp [strncmp_eq0]
  | cons b bs ih =>
    cases path with
    | nil =>
      simp [strncmp_eq0]
    | cons a as =>
      simp only [List.length_cons, strncmp_eq0, Bool.and_eq_true, beq_iff_eq, ih,
        List.cons_append, List.cons.injEq]
      constructor
      · rintro ⟨rfl, t, rfl⟩
        exact ⟨t, rfl, rfl⟩
      · rintro ⟨t, rfl, rfl⟩
        exact ⟨rfl, t, rfl⟩

/-- C3: a sweep at time `S` removes exactly the entries of age `≥ TTL` and
keeps every fresh entry unchanged and in place, so the swept store is the
filter of the fresh entries and its size is the number of fresh entries
before the sweep. -/
theorem C3_sweep_removes_exactly_expired (ttl S : Nat) (store : List GetattrCacheEntry) :
    cleanup_cache ttl S store = store.filter (fun e => decide (S - e.timestamp < ttl))
    ∧ (cleanup_cache ttl S store).length
        = (store.filter (fun e => decide (S - e.timestamp < ttl))).length
    ∧ ∀ e, e ∈ cleanup_cache ttl S store ↔ e ∈ store ∧ S - e.timestamp < ttl := by
  have hfilter : cleanup_cache ttl S store
      = store.filter (fun e => decide (S - e.timestamp < ttl)) := by
    induction store with
    | nil => rfl
    | cons e rest ih =>
      by_cases h : S - e.timestamp ≥ ttl
      · rw [cleanup_cache, if_pos h, ih, List.filter_cons_of_neg]
        simpa using h
      · rw [cleanup_cache, if_neg h, ih, List.filter_cons_of_pos]
        simpa using Nat.lt_of_not_le h
  refine ⟨hfilter, by rw [hfilter], ?_⟩
  intro e
  rw [hfilter]
  simp [List.mem_filter]

/-- C4: eligibility holds iff some configured entry is a raw byte-prefix of
the path (no path-segment boundary check); in particular with the source's
table `["/tmp/nfs"]`, both `/tmp/nfs/a` and `/tmp/nfsother` are eligible. -/
theorem C4_eligibility_iff_byte_prefixed :
    (∀ (prefixes : List CStr) (path : CStr),
        should_cache_path prefixes path = true
          ↔ ∃ pre ∈ prefixes, ∃ t, path = pre ++ t)
    ∧ should_cache_path cached_paths "/tmp/nfs/a".data = true
    ∧ should_cache_path cached_paths "/tmp/nfsother".data = true := by
  refine ⟨?_, by decide, by decide⟩
  intro prefixes path
  simp [should_cache_path, List.any_eq_true, strncmp_eq0_length_iff]

/-- The stored copy of a resolved path is the path itself: `d_path` wrote
`fullpath` into a buffer of `MAX_PATH_LEN` bytes, so it has at most
`MAX_PATH_LEN - 1` characters and the truncating copy keeps all of them. -/
theorem truncate_path_eq_of_le (s : CStr) (h : s.length ≤ MAX_PATH_LEN - 1) :
    truncate_path s = s :=
  List.take_of_length_le h

/-- C1: after a `cached_getattr` miss at time `T` on an eligible resolved
path whose provider fetch succeeded and whose entry was inserted, any
`cached_getattr` on the same resolved path at a time `t ∈ [T, T + TTL)`
returns 0 with the cached attributes, makes no provider call, increments
the hit counter by exactly one, and changes neither the store nor the miss
counter. -/
theorem C1_hit_within_ttl (prefixes : List CStr) (ttl T t : Nat) (fullpath : CStr)
    (fetchAttr : KStat) (fetchRet2 : Int) (fetchAttr2 : KStat) (alloc2 : Bool)
    (st : CacheState)
    (hlen : fullpath.length ≤ MAX_PATH_LEN - 1)
    (helig : should_cache_path prefixes fullpath = true)
    (hmiss : lookup_loop ttl T fullpath st.cache_list = none)
    (hT : T ≤ t) (ht : t < T + ttl) :
    let r0 := cached_getattr prefixes ttl true true true (some fullpath) T
      0 fetchAttr true st
    let r1 := cached_getattr prefixes ttl true true true (some fullpath) t
      fetchRet2 fetchAttr2 alloc2 r0.state
    r1.ret = 0 ∧ r1.statOut = some fetchAttr ∧ r1.providerCalls = 0
    ∧ r1.state.cache_hits = r0.state.cache_hits + 1
    ∧ r1.state.cache_misses = r0.state.cache_misses
    ∧ r1.state.cache_list = r0.state.cache_list := by
  have htr : truncate_path fullpath = fullpath := truncate_path_eq_of_le fullpath hlen
  have hr0 : cached_getattr prefixes ttl true true true (some fullpath) T
      0 fetchAttr true st
      = ⟨0, some fetchAttr, 1,
          ⟨⟨fullpath, fetchAttr, T⟩ :: st.cache_list, st.cache_hits,
            st.cache_misses + 1⟩⟩ := by
    simp [cached_getattr, helig, hmiss, htr]
  have hlt : t - T < ttl := by omega
  have hr1 : cached_getattr prefixes ttl true true true (some fullpath) t
      fetchRet2 fetchAttr2 alloc2
      ⟨⟨fullpath, fetchAttr, T⟩ :: st.cache_list, st.cache_hits, st.cache_misses + 1⟩
      = ⟨0, some fetchAttr, 0,
          ⟨⟨fullpath, fetchAttr, T⟩ :: st.cache_list, st.cache_hits + 1,
            st.cache_misses + 1⟩⟩ := by
    simp [cached_getattr, helig, lookup_loop, hlt]
  simp only [hr0, hr1]
  simp

/-- Closed instance of `C1_hit_within_ttl`: entry inserted at jiffy 0 with
TTL 1000 for `/tmp/nfs/a`, looked up again at jiffy 500. -/
theorem C1_hit_within_ttl_witness :
    let r0 := cached_getattr cached_paths 1000 true true true
      (some "/tmp/nfs/a".data) 0 0 7 true ⟨[], 0, 0⟩
    let r1 := cached_getattr cached_paths 1000 true true true
      (some "/tmp/nfs/a".data) 500 5 9 false r0.state
    r1.ret = 0 ∧ r1.statOut = some 7 ∧ r1.providerCalls = 0
    ∧ r1.state.cache_hits = r0.state.cache_hits + 1
    ∧ r1.state.cache_misses = r0.state.cache_misses
    ∧ r1.state.cache_list = r0.state.cache_list :=
  C1_hit_within_ttl cached_paths 1000 0 500 "/tmp/nfs/a".data 7 5 9 false
    ⟨[], 0, 0⟩ (by decide) (by decide) (by decide) (by decide) (by decide)

/-- C2: the lookup loop returns the attributes of the first entry in store
order whose path matches exactly and whose age is strictly below the TTL
(`List.find?` semantics); a matching but expired entry is skipped and the
scan continues with the later entries; and a hit removes no entry from the
store. -/
theorem C2_lookup_first_fresh_match (ttl now : Nat) (p : CStr)
    (store : List GetattrCacheEntry) :
    lookup_loop ttl now p store
      = (store.find? (fun e =>
          decide (e.path = p ∧ now - e.timestamp < ttl))).map GetattrCacheEntry.stat
    ∧ (∀ e rest, e.path = p → ttl ≤ now - e.timestamp →
        lookup_loop ttl now p (e :: rest) = lookup_loop ttl now p rest)
    ∧ (∀ (prefixes : List CStr) (fetchRet : Int) (fetchAttr : KStat)
        (allocOk : Bool) (st : CacheState) (a : KStat),
        st.cache_list = store →
        lookup_loop ttl now p store = some a →
        (cached_getattr prefixes ttl true true true (some p) now
          fetchRet fetchAttr allocOk st).state.cache_list = store) := by
  refine ⟨?_, ?_, ?_⟩
  · induction store with
    | nil => rfl
    | cons e rest ih =>
      by_cases h : e.path = p ∧ now - e.timestamp < ttl
      · rw [lookup_loop, if_pos h, List.find?_cons_of_pos]
        · rfl
        · simpa using h
      · rw [lookup_loop, if_neg h, ih, List.find?_cons_of_neg]
        simpa using h
  · intro e rest hpath hexp
    rw [lookup_loop, if_neg]
    rintro ⟨-, hlt⟩
    omega
  · intro prefixes fetchRet fetchAttr allocOk st a hst hhit
    subst hst
    by_cases helig : should_cache_path prefixes p = false
    · simp [cached_getattr, helig]
    · simp [cached_getattr, helig, hhit]

/-- Closed instance of `C2_lookup_first_fresh_match`: an expired entry for
`/tmp/nfs/a` at the head is skipped and the scan continues to a fresh
duplicate behind it, and the hit leaves the two-entry store intact. -/
theorem C2_lookup_first_fresh_match_witness :
    lookup_loop 1000 1500 "/tmp/nfs/a".data
        [⟨"/tmp/nfs/a".data, 3, 0⟩, ⟨"/tmp/nfs/a".data, 4, 900⟩]
      = lookup_loop 1000 1500 "/tmp/nfs/a".data [⟨"/tmp/nfs/a".data, 4, 900⟩]
    ∧ (cached_getattr cached_paths 1000 true true true (some "/tmp/nfs/a".data)
        1500 5 9 true
        ⟨[⟨"/tmp/nfs/a".data, 3, 0⟩, ⟨"/tmp/nfs/a".data, 4, 900⟩], 0, 1⟩).state.cache_list
      = [⟨"/tmp/nfs/a".data, 3, 0⟩, ⟨"/tmp/nfs/a".data, 4, 900⟩] :=
  ⟨(C2_lookup_first_fresh_match 1000 1500 "/tmp/nfs/a".data
      [⟨"/tmp/nfs/a".data, 4, 900⟩]).2.1 ⟨"/tmp/nfs/a".data, 3, 0⟩
      [⟨"/tmp/nfs/a".data, 4, 900⟩] (by decide) (by decide),
   (C2_lookup_first_fresh_match 1000 1500 "/tmp/nfs/a".data
      [⟨"/tmp/nfs/a".data, 3, 0⟩, ⟨"/tmp/nfs/a".data, 4, 900⟩]).2.2
      cached_paths 5 9 true
      ⟨[⟨"/tmp/nfs/a".data, 3, 0⟩, ⟨"/tmp/nfs/a".data, 4, 900⟩], 0, 1⟩ 4
      (by decide) (by decide)⟩

/-- C5: on an eligible-path cache miss, exactly one provider call is made;
on a successful fetch (with the kmalloc succeeding) the result is prepended
to the store, the miss counter is incremented, and the result is returned;
on a provider error the error is returned unchanged and nothing is inserted. -/
theorem C5_miss_fetch_insert_or_propagate (prefixes : List CStr) (ttl now : Nat)
    (fullpath : CStr) (fetchRet : Int) (fetchAttr : KStat) (allocOk : Bool)
    (st : CacheState)
    (helig : should_cache_path prefixes fullpath = true)
    (hmiss : lookup_loop ttl now fullpath st.cache_list = none) :
    let r := cached_getattr prefixes ttl true true true (some fullpath) now
      fetchRet fetchAttr allocOk st
    r.providerCalls = 1
    ∧ (fetchRet = 0 → allocOk = true →
        r.state.cache_list = ⟨truncate_path fullpath, fetchAttr, now⟩ :: st.cache_list
        ∧ r.state.cache_misses = st.cache_misses + 1
        ∧ r.ret = 0 ∧ r.statOut = some fetchAttr)
    ∧ (fetchRet ≠ 0 →
        r.ret = fetchRet ∧ r.statOut = none
        ∧ r.state.cache_list = st.cache_list) := by
  by_cases hf : fetchRet = 0
  · subst hf
    cases allocOk with
    | false => simp [cached_getattr, helig, hmiss]
    | true => simp [cached_getattr, helig, hmiss]
  · simp [cached_getattr, helig, hmiss, hf]

/-- Closed instance of `C5_miss_fetch_insert_or_propagate`: a miss on
`/tmp/nfs/a` with an empty store, a successful fetch returning stat 7, and
a successful allocation. -/
theorem C5_miss_fetch_insert_or_propagate_witness :
    let r := cached_getattr cached_paths 1000 true true true
      (some "/tmp/nfs/a".data) 0 0 7 true ⟨[], 0, 0⟩
    r.providerCalls = 1
    ∧ ((0 : Int) = 0 → true = true →
        r.state.cache_list = [⟨truncate_path "/tmp/nfs/a".data, 7, 0⟩]
        ∧ r.state.cache_misses = 0 + 1
        ∧ r.ret = 0 ∧ r.statOut = some 7)
    ∧ ((0 : Int) ≠ 0 →
        r.ret = 0 ∧ r.statOut = none ∧ r.state.cache_list = []) :=
  C5_miss_fetch_insert_or_propagate cached_paths 1000 0 "/tmp/nfs/a".data 0 7 true
    ⟨[], 0, 0⟩ (by decide) (by decide)

/-- C6: on a path the policy filter rejects, `cached_getattr` delegates to
the provider once, returns its result, and leaves the store and both
counters (the whole state) unchanged. -/
theorem C6_ineligible_delegates (prefixes : List CStr) (ttl now : Nat) (p : CStr)
    (fetchRet : Int) (fetchAttr : KStat) (allocOk : Bool) (st : CacheState)
    (h : should_cache_path prefixes p = false) :
    let r := cached_getattr prefixes ttl true true true (some p) now
      fetchRet fetchAttr allocOk st
    r.ret = fetchRet
    ∧ r.statOut = (if fetchRet = 0 then some fetchAttr else none)
    ∧ r.providerCalls = 1 ∧ r.state = st := by
  simp [cached_getattr, h]

/-- Closed instance of `C6_ineligible_delegates`: `/etc/passwd` is not
prefixed by the configured table, so the call is delegated and the state is
untouched. -/
theorem C6_ineligible_delegates_witness :
    let r := cached_getattr cached_paths 1000 true true true
      (some "/etc/passwd".data) 0 0 7 true ⟨[], 2, 3⟩
    r.ret = 0
    ∧ r.statOut = (if (0 : Int) = 0 then some 7 else none)
    ∧ r.providerCalls = 1 ∧ r.state = ⟨[], 2, 3⟩ :=
  C6_ineligible_delegates cached_paths 1000 0 "/etc/passwd".data 0 7 true
    ⟨[], 2, 3⟩ (by decide)

/-- C7: a null path argument or null output target makes `cached_getattr`
fail immediately with `-EINVAL`: no provider call, nothing written to the
output, and the state untouched. -/
theorem C7_invalid_args_einval (prefixes : List CStr) (ttl : Nat)
    (pathNonNull dentryNonNull statNonNull : Bool) (resolved : Option CStr)
    (now : Nat) (fetchRet : Int) (fetchAttr : KStat) (allocOk : Bool)
    (st : CacheState)
    (h : pathNonNull = false ∨ statNonNull = false) :
    let r := cached_getattr prefixes ttl pathNonNull dentryNonNull statNonNull
      resolved now fetchRet fetchAttr allocOk st
    r.ret = -EINVAL ∧ r.statOut = none ∧ r.providerCalls = 0 ∧ r.state = st := by
  rcases h with h | h <;> simp [cached_getattr, h]

/-- Closed instance of `C7_invalid_args_einval`: a null path argument. -/
theorem C7_invalid_args_einval_witness :
    let r := cached_getattr cached_paths 1000 false true true
      (some "/tmp/nfs/a".data) 0 0 7 true ⟨[], 2, 3⟩
    r.ret = -EINVAL ∧ r.statOut = none ∧ r.providerCalls = 0
    ∧ r.state = ⟨[], 2, 3⟩ :=
  C7_invalid_args_einval cached_paths 1000 false true true
    (some "/tmp/nfs/a".data) 0 0 7 true ⟨[], 2, 3⟩ (Or.inl rfl)

/-- C8: when the entry allocation fails after a successful fetch on an
eligible-path miss, the fetched result is still returned with status 0 and
is simply not recorded: no error is surfaced and the store keeps its old
contents. -/
theorem C8_alloc_failure_nonfatal (prefixes : List CStr) (ttl now : Nat)
    (fullpath : CStr) (fetchAttr : KStat) (st : CacheState)
    (helig : should_cache_path prefixes fullpath = true)
    (hmiss : lookup_loop ttl now fullpath st.cache_list = none) :
    let r := cached_getattr prefixes ttl true true true (some fullpath) now
      0 fetchAttr false st
    r.ret = 0 ∧ r.statOut = some fetchAttr ∧ r.providerCalls = 1
    ∧ r.state.cache_list = st.cache_list := by
  simp [cached_getattr, helig, hmiss]

/-- Closed instance of `C8_alloc_failure_nonfatal`: miss on `/tmp/nfs/a`,
fetch succeeds with stat 7, kmalloc fails. -/
theorem C8_alloc_failure_nonfatal_witness :
    let r := cached_getattr cached_paths 1000 true true true
      (some "/tmp/nfs/a".data) 0 0 7 false ⟨[], 0, 0⟩
    r.ret = 0 ∧ r.statOut = some 7 ∧ r.providerCalls = 1
    ∧ r.state.cache_list = [] :=
  C8_alloc_failure_nonfatal cached_paths 1000 0 "/tmp/nfs/a".data 7 ⟨[], 0, 0⟩
    (by decide) (by decide)

/-- C9: the insert after a successful fetch prepends the new entry and keeps
every existing entry, replacing and removing nothing, so the number of
stored entries for the inserted path grows by exactly one and duplicates
for the same path accumulate. -/
theorem C9_insert_keeps_duplicates (prefixes : List CStr) (ttl now : Nat)
    (fullpath : CStr) (fetchAttr : KStat) (st : CacheState)
    (helig : should_cache_path prefixes fullpath = true)
    (hmiss : lookup_loop ttl now fullpath st.cache_list = none) :
    let r := cached_getattr prefixes ttl true true true (some fullpath) now
      0 fetchAttr true st
    r.state.cache_list = ⟨truncate_path fullpath, fetchAttr, now⟩ :: st.cache_list
    ∧ r.state.cache_list.countP (fun e => decide (e.path = truncate_path fullpath))
        = st.cache_list.countP (fun e => decide (e.path = truncate_path fullpath)) + 1
    ∧ ∀ e ∈ st.cache_list, e ∈ r.state.cache_list := by
  have hr : cached_getattr prefixes ttl true true true (some fullpath) now
      0 fetchAttr true st
      = ⟨0, some fetchAttr, 1,
          ⟨⟨truncate_path fullpath, fetchAttr, now⟩ :: st.cache_list,
            st.cache_hits, st.cache_misses + 1⟩⟩ := by
    simp [cached_getattr, helig, hmiss]
  refine ⟨?_, ?_, ?_⟩
  · rw [hr]
  · simp [hr, List.countP_cons]
  · intro e he
    simp only [hr]
    exact List.mem_cons_of_mem _ he

/-- Closed instance of `C9_insert_keeps_duplicates`: the store already holds
an expired entry for `/tmp/nfs/a`; the insert at jiffy 1000 leaves it in
place, so two entries for the same path coexist. -/
theorem C9_insert_keeps_duplicates_witness :
    let r := cached_getattr cached_paths 1000 true true true
      (some "/tmp/nfs/a".data) 1000 0 7 true ⟨[⟨"/tmp/nfs/a".data, 3, 0⟩], 0, 1⟩
    r.state.cache_list
        = [⟨truncate_path "/tmp/nfs/a".data, 7, 1000⟩, ⟨"/tmp/nfs/a".data, 3, 0⟩]
    ∧ r.state.cache_list.countP (fun e => decide (e.path = truncate_path "/tmp/nfs/a".data))
        = ([⟨"/tmp/nfs/a".data, 3, 0⟩] : List GetattrCacheEntry).countP
            (fun e => decide (e.path = truncate_path "/tmp/nfs/a".data)) + 1
    ∧ ∀ e ∈ ([⟨"/tmp/nfs/a".data, 3, 0⟩] : List GetattrCacheEntry),
        e ∈ r.state.cache_list :=
  C9_insert_keeps_duplicates cached_paths 1000 1000 "/tmp/nfs/a".data 7
    ⟨[⟨"/tmp/nfs/a".data, 3, 0⟩], 0, 1⟩ (by decide) (by decide)

/-- C10: when path resolution fails (`d_path` errors), `cached_getattr`
delegates directly to the provider — once — and returns its result, leaving
the whole state (store and both counters) unchanged; the conclusion holds
for every prefix table and every store, so neither the policy nor the cache
contents are consulted. -/
theorem C10_resolution_failure_delegates (prefixes : List CStr) (ttl now : Nat)
    (fetchRet : Int) (fetchAttr : KStat) (allocOk : Bool) (st : CacheState) :
    let r := cached_getattr prefixes ttl true true true none now
      fetchRet fetchAttr allocOk st
    r.ret = fetchRet
    ∧ r.statOut = (if fetchRet = 0 then some fetchAttr else none)
    ∧ r.providerCalls = 1 ∧ r.state = st := by
  simp [cached_getattr]
